import Mathlib

/-!
Verification development for the `control_gastos` ledger application
(`src/app.py`).  The application keeps a table of dated income / expense /
investment records, computes per-type totals, supports add / update / delete
of records through validated UI inputs, parses the record region of an Excel
sheet into the table, and serializes the table back into the sheet.

Shallow embedding conventions used throughout this file:

* A spreadsheet cell is `Cell`: empty (pandas `NaN`), a string, or a number
  (cell numbers are modeled as integers; the application only ever writes
  whole currency amounts, `st.number_input` values).
* A sheet (`openpyxl` worksheet, or a pandas `DataFrame`) is a list of rows,
  each row a list of cells.  Sheets are indexed 0-based: sheet row `m`
  corresponds to 1-indexed Excel row `m + 1`.  The pandas `DataFrame`
  obtained by `pd.read_excel` consumes Excel row 1 as the column-name header,
  so DataFrame row `r` is sheet row `r + 1` (Excel row `r + 2`); this is the
  `List.drop 1` relation used below.
* A ledger record (one row of the in-memory `registros` DataFrame, columns
  `Fecha, Mes, Ingreso / Gasto / Inversión, Concepto, Detalle, Valor` in that
  order) is the structure `Record`.
-/

namespace ControlGastos

/-- A spreadsheet cell: empty (`NaN`), a text cell, or a numeric cell. -/
inductive Cell where
  | empty : Cell
  | str : String → Cell
  | num : Int → Cell
deriving DecidableEq

/-- One row of a sheet or DataFrame: a list of cells. -/
abbrev Row := List Cell

/-- A sheet or DataFrame: a list of rows, 0-indexed. -/
abbrev Sheet := List Row

/-- Cell of a row at a 0-based column position; positions beyond the stored
row read as empty, matching a spreadsheet's unbounded grid. -/
def cellAt : Row → Nat → Cell
  | [], _ => Cell.empty
  | c :: _, 0 => c
  | _ :: row, n + 1 => cellAt row n

/-- Set the cell of a row at a 0-based column position, padding with empty
cells if the row is shorter (`openpyxl` creates the intermediate cells). -/
def setCellRow : Row → Nat → Cell → Row
  | [], 0, v => [v]
  | [], n + 1, v => Cell.empty :: setCellRow [] n v
  | _ :: row, 0, v => v :: row
  | c :: row, n + 1, v => c :: setCellRow row n v

/-- Row of a sheet at a 0-based position; positions beyond the stored sheet
read as an all-empty row. -/
def getRowAt : Sheet → Nat → Row
  | [], _ => []
  | r :: _, 0 => r
  | _ :: ws, n + 1 => getRowAt ws n

/-- Replace the row of a sheet at a 0-based position, padding with empty rows
if the sheet is shorter (`openpyxl` creates the intermediate rows). -/
def setRowAt : Sheet → Nat → Row → Sheet
  | [], 0, row => [row]
  | [], n + 1, row => [] :: setRowAt [] n row
  | _ :: ws, 0, row => row :: ws
  | r :: ws, n + 1, row => r :: setRowAt ws n row

/-- `ws.cell(row=i, column=c, value=v)` of `openpyxl` (1-indexed
coordinates), over the 0-indexed sheet model. -/
def wsCell (ws : Sheet) (row column : Nat) (value : Cell) : Sheet :=
  setRowAt ws (row - 1) (setCellRow (getRowAt ws (row - 1)) (column - 1) value)

/-- A row all of whose stored cells are empty: dropped by
`dropna(how='all')` (src/app.py lines 142, 145). -/
def rowAllEmpty (row : Row) : Bool :=
  row.all (fun c => c == Cell.empty)

/-- One ledger record, i.e. one row of the in-memory `registros` DataFrame.
Field order matches the sheet's column order
`Fecha, Mes, Ingreso / Gasto / Inversión, Concepto, Detalle, Valor`. -/
structure Record where
  fecha : String
  mes : String
  tipo : String
  concepto : String
  detalle : String
  valor : Int
deriving DecidableEq

/-- The five record fields other than the `mes` month label: date, type,
concept, detail, value.  Used to compare records up to the month label. -/
def core (r : Record) : String × String × String × String × Int :=
  (r.fecha, r.tipo, r.concepto, r.detalle, r.valor)

/-- `sumar_valor` (src/app.py lines 153-170): sum of the `Valor` column over
the records whose `Ingreso / Gasto / Inversión` column equals `tipo`. -/
def sumar_valor (registros : List Record) (tipo : String) : Int :=
  ((registros.filter (fun r => r.tipo == tipo)).map Record.valor).sum

/-- The four aggregate results displayed by the application. -/
structure Totals where
  ingresos : Int
  gastos : Int
  inversiones : Int
  balance : Int
deriving DecidableEq

/-- The totals computation (src/app.py lines 172-175):
three `sumar_valor` sums and `balance = ingresos - gastos - inversiones`. -/
def totals (registros : List Record) : Totals :=
  let ingresos := sumar_valor registros ("Ingreso")
  let gastos := sumar_valor registros ("Gasto")
  let inversiones := sumar_valor registros ("Inversión")
  { ingresos := ingresos, gastos := gastos, inversiones := inversiones,
    balance := ingresos - gastos - inversiones }

/-- A calendar date as produced by `st.date_input` (src/app.py lines 234,
295): day, month and year components. -/
structure Fecha where
  day : Nat
  month : Nat
  year : Nat
deriving DecidableEq

/-- The Spanish month names (src/app.py lines 219-222). -/
def meses : List String :=
  ["enero", "febrero", "marzo", "abril", "mayo", "junio", "julio",
   "agosto", "septiembre", "octubre", "noviembre", "diciembre"]

/-- `meses[fecha.month - 1]` (src/app.py lines 257, 344): the localized
month label derived from a date.  A date widget only produces months 1-12,
so the out-of-range default is never reached. -/
def mesDe (f : Fecha) : String :=
  meses.getD (f.month - 1) ("")

/-- Two-digit zero-padded decimal rendering, as `strftime` uses for
`%d` and `%m`. -/
def formatNat2 (n : Nat) : String :=
  if n < 10 then ("0") ++ toString n else toString n

/-- Four-digit zero-padded decimal rendering, as `strftime` uses for
`%Y`. -/
def formatNat4 (n : Nat) : String :=
  if n < 10 then ("000") ++ toString n
  else if n < 100 then ("00") ++ toString n
  else if n < 1000 then ("0") ++ toString n
  else toString n

/-- `fecha.strftime('%d-%m-%Y')` (src/app.py lines 263, 346): the canonical
textual form of a date. -/
def formatFecha (f : Fecha) : String :=
  formatNat2 f.day ++ "-" ++ formatNat2 f.month ++ "-" ++ formatNat4 f.year

/-- Numeric value of a decimal digit character, `none` otherwise. -/
def digitVal? (c : Char) : Option Nat :=
  if '0' ≤ c ∧ c ≤ '9' then some (c.toNat - Char.toNat '0') else none

/-- Decimal value of a digit string, `none` if any character is not a
digit. -/
def digitsValAux : List Char → Nat → Option Nat
  | [], acc => some acc
  | c :: cs, acc =>
    match digitVal? c with
    | some d => digitsValAux cs (acc * 10 + d)
    | none => none

/-- Decimal value of a non-empty digit string. -/
def digitsVal? : List Char → Option Nat
  | [] => none
  | cs => digitsValAux cs 0

/-- Split a character list into the groups separated by `-`. -/
def splitOnDash : List Char → List (List Char)
  | [] => [[]]
  | c :: cs =>
    if c = '-' then [] :: splitOnDash cs
    else
      match splitOnDash cs with
      | [] => [[c]]
      | g :: gs => (c :: g) :: gs

/-- Gregorian leap-year rule. -/
def isLeapYear (y : Nat) : Bool :=
  y % 4 == 0 && (y % 100 != 0 || y % 400 == 0)

/-- Number of days of a month in a year. -/
def daysInMonth (m y : Nat) : Nat :=
  if m == 2 then (if isLeapYear y then 29 else 28)
  else if m == 4 || m == 6 || m == 9 || m == 11 then 30
  else 31

/-- A day/month/year triple that denotes a real calendar date. -/
def validFecha (f : Fecha) : Bool :=
  decide (1 ≤ f.month) && decide (f.month ≤ 12) && decide (1 ≤ f.day) &&
    decide (f.day ≤ daysInMonth f.month f.year)

/-- `pd.to_datetime(s, format='%d-%m-%Y')` (src/app.py lines 149-150,
296-300): strict parse of a `D(D)-M(M)-YYYY` string into a calendar date;
`none` models the raised `DateFormatError` (spec §4.2 step 4) on cells that
do not match the pattern or denote no real date. -/
def parseFecha? (s : String) : Option Fecha :=
  match splitOnDash s.data with
  | [d, m, y] =>
    if d.length ≤ 2 ∧ m.length ≤ 2 ∧ 1 ≤ y.length ∧ y.length ≤ 4 then
      match digitsVal? d, digitsVal? m, digitsVal? y with
      | some dd, some mm, some yy =>
        if validFecha ⟨dd, mm, yy⟩ then some ⟨dd, mm, yy⟩ else none
      | _, _, _ => none
    else none
  | _ => none

/-- A date string in canonical `DD-MM-YYYY` form: it parses, and re-emitting
it with `strftime('%d-%m-%Y')` reproduces it unchanged. -/
def isCanonicalFecha (s : String) : Bool :=
  match parseFecha? s with
  | some f => formatFecha f == s
  | none => false

/-- The category sheet (`Categorías`) as the application accesses it
(src/app.py lines 239, 248, 309, 318): `tipos` is the first column
`categories.iloc[:, 0].dropna()` (the declared record types), and
`columnas` maps a column name to that column's non-empty values
(`categories[name].dropna()`), holding the valid concepts of each type. -/
structure Categorias where
  tipos : List String
  columnas : List (String × List String)

/-- `categories[tipo].dropna().tolist()` (src/app.py lines 248, 318): the
ordered concepts declared for a record type; `none` models the `KeyError`
on a type without a column (spec §4.1 `UnknownTypeError`). -/
def conceptsFor? (categories : Categorias) (tipo : String) : Option (List String) :=
  categories.columnas.lookup tipo

/-- The error taxonomy of spec §7 for the reified operations. -/
inductive LedgerError where
  | unknownType
  | invalidConcept
  | invalidValue
  | dateFormat
  | indexOutOfRange
deriving DecidableEq

/-- The add-record flow (src/app.py lines 230-278).  The `Tipo de Registro`
selectbox (line 240) only offers `categories.iloc[:, 0]`, the `Concepto`
selectbox (line 249) only offers `categories[tipo]`, and the `Valor`
number input (line 253) enforces `min_value=0.0`; a candidate outside these
sets cannot be submitted.  Following spec §4.3/§7 these input rejections are
reified as `LedgerError` results.  On success the flow derives the month
label `meses[fecha.month - 1]` (line 257), formats the date (line 263) and
appends the new record preserving the existing column order
(lines 264-268, `reindex(columns=registros.columns)` + `concat`). -/
def addRecord (categories : Categorias) (registros : List Record)
    (fecha : Fecha) (tipo concepto detalle : String) (valor : Int) :
    Except LedgerError (List Record) :=
  if tipo ∈ categories.tipos then
    match conceptsFor? categories tipo with
    | none => Except.error LedgerError.unknownType
    | some conceptos =>
      if concepto ∈ conceptos then
        if valor < 0 then Except.error LedgerError.invalidValue
        else
          Except.ok (registros ++
            [{ fecha := formatFecha fecha, mes := mesDe fecha, tipo := tipo,
               concepto := concepto, detalle := detalle, valor := valor }])
      else Except.error LedgerError.invalidConcept
  else Except.error LedgerError.unknownType

/-- The modify-record flow (src/app.py lines 281-353).  The index number
input (lines 287-292) enforces `0 <= row_index <= len(registros) - 1`
(reified as `IndexOutOfRangeError`, spec §4.3); the type selectbox
(lines 307-314) only offers `categories.iloc[:, 0]`; the concept selectbox
(lines 320-328, `index=None`) only offers `categories[tipo]` and yields
`None` when the user picks nothing, in which case line 329-330 keeps the
record's existing concept; the value input (line 337) enforces
`min_value=0`.  On success every column of the record at `row_index` is
overwritten (lines 343-348) with the re-derived month label and formatted
date. -/
def updateRecord (categories : Categorias) (registros : List Record)
    (rowIndex : Int) (fecha : Fecha) (tipo : String) (concepto? : Option String)
    (detalle : String) (valor : Int) : Except LedgerError (List Record) :=
  if 0 ≤ rowIndex ∧ rowIndex ≤ (registros.length : Int) - 1 then
    let i : Nat := rowIndex.toNat
    if tipo ∈ categories.tipos then
      match conceptsFor? categories tipo with
      | none => Except.error LedgerError.unknownType
      | some conceptos =>
        match concepto? with
        | some c =>
          if c ∈ conceptos then
            if valor < 0 then Except.error LedgerError.invalidValue
            else
              Except.ok (registros.set i
                { fecha := formatFecha fecha, mes := mesDe fecha, tipo := tipo,
                  concepto := c, detalle := detalle, valor := valor })
          else Except.error LedgerError.invalidConcept
        | none =>
          if valor < 0 then Except.error LedgerError.invalidValue
          else
            Except.ok (registros.set i
              { fecha := formatFecha fecha, mes := mesDe fecha, tipo := tipo,
                concepto := Option.getD ((registros[i]?).map Record.concepto) (""),
                detalle := detalle, valor := valor })
    else Except.error LedgerError.unknownType
  else Except.error LedgerError.indexOutOfRange

/-- The delete-record flow (src/app.py lines 356-369).  The index number
input (lines 357-361) enforces `0 <= row_index <= len(registros) - 1`
(reified as `IndexOutOfRangeError`); on success the row is dropped
(`registros.drop(registros.index[row_index])`, the label at position
`row_index` of the dense 0-based index) and the remaining rows are
re-indexed densely (`reset_index(drop=True)`), i.e. `List.eraseIdx`. -/
def deleteRecord (registros : List Record) (rowIndex : Int) :
    Except LedgerError (List Record) :=
  if 0 ≤ rowIndex ∧ rowIndex ≤ (registros.length : Int) - 1 then
    Except.ok (registros.eraseIdx rowIndex.toNat)
  else Except.error LedgerError.indexOutOfRange

/-- How a flow's result reaches the session table: the source only assigns
`st.session_state.registros` on the success path (src/app.py lines 270, 349,
365); on a rejected input the previously accepted table stays. -/
def applyResult (registros : List Record)
    (result : Except LedgerError (List Record)) : List Record :=
  match result with
  | Except.ok nuevo => nuevo
  | Except.error _ => registros

/-- The concrete taxonomy of the spec §8 scenario: type `Expense`
(localized `"Gasto"`) with concepts `["Food", "Transport"]`. -/
def c2cats : Categorias :=
  ⟨["Gasto"], [("Gasto", ["Food", "Transport"])]⟩

/-- A sample record for the C6 out-of-range scenario. -/
def c6rec : Record :=
  { fecha := "01-01-2024", mes := "enero", tipo := "Gasto",
    concepto := "Food", detalle := "", valor := 1 }

/-- Taxonomy for the C5 invalid-concept scenario. -/
def c5cats : Categorias :=
  ⟨["Gasto"], [("Gasto", ["Food"])]⟩

/-- Taxonomy for the C10 kept-concept scenario: two types with disjoint
concept vocabularies. -/
def c10cats : Categorias :=
  ⟨["Gasto", "Ingreso"], [("Gasto", ["Food"]), ("Ingreso", ["Salario"])]⟩

/-- Table for the C10 kept-concept scenario. -/
def c10regs : List Record :=
  [{ fecha := "01-01-2024", mes := "enero", tipo := "Gasto",
     concepto := "Food", detalle := "", valor := 10 }]

/-- `itertuples(index=False)` of one record (src/app.py line 382): the six
field values in the DataFrame's column order. -/
def itertuple (r : Record) : List Cell :=
  [Cell.str r.fecha, Cell.str r.mes, Cell.str r.tipo, Cell.str r.concepto,
   Cell.str r.detalle, Cell.num r.valor]

/-- The inner serialization loop (src/app.py lines 385-393): walk the tuple
with `j` and a 1-indexed `column_index` starting at 1; at `j = 1` only skip
a column (omitting both the `Mes` value and Excel column B), otherwise write
the value at `(row i, column column_index)` and advance. -/
def writeRowLoop : Sheet → Nat → List Cell → Nat → Nat → Sheet
  | ws, _, [], _, _ => ws
  | ws, i, value :: rest, j, column_index =>
    if j == 1 then writeRowLoop ws i rest (j + 1) (column_index + 1)
    else
      writeRowLoop (wsCell ws i column_index value) i rest (j + 1)
        (column_index + 1)

/-- The outer serialization loop (src/app.py lines 381-393):
`enumerate(registros.itertuples(index=False), start=13)`, writing record
number `i - 13` into 1-indexed Excel row `i`. -/
def writeRegistros : Sheet → Nat → List Record → Sheet
  | ws, _, [] => ws
  | ws, i, r :: rs => writeRegistros (writeRowLoop ws i (itertuple r) 0 1) (i + 1) rs

/-- Serialize a record table into a copy of a sheet: rows from 1-indexed
Excel row 13 (sheet index 12) on are overwritten, one row per record. -/
def writeTable (ws : Sheet) (registros : List Record) : Sheet :=
  writeRegistros ws 13 registros

/-- The effect of the inner serialization loop on the one row it touches:
cells 0, 2, 3, 4, 5 (0-indexed) receive date, type, concept, detail and
value; cell 1 (Excel column B) is untouched and the `mes` field is never
emitted. -/
def overwriteRow (row : Row) (r : Record) : Row :=
  setCellRow
    (setCellRow
      (setCellRow
        (setCellRow
          (setCellRow row 0 (Cell.str r.fecha))
          2 (Cell.str r.tipo))
        3 (Cell.str r.concepto))
      4 (Cell.str r.detalle))
    5 (Cell.num r.valor)

/-- Pointwise description of the serialized data region: the first
`len registros` rows are overwritten in place, later rows are kept. -/
def zipWrite : List Row → List Record → List Row
  | rows, [] => rows
  | [], r :: rs => overwriteRow [] r :: zipWrite [] rs
  | row :: rows, r :: rs => overwriteRow row r :: zipWrite rows rs

/-- The two data-source modes of the session
(`st.session_state.file_source`, src/app.py lines 70-107). -/
inductive FileSource where
  | default
  | uploaded

/-- The export flow (src/app.py lines 374-399).  Its parameters carry the
session's state: the bundled template's `Registro` sheet (the content of
the fixed path `Control Gastos Ingresos.xlsx`), the `Registro` sheet of the
user-uploaded workbook, and the selected source mode.  The source reloads
the bundled template unconditionally (lines 375-377,
`openpyxl.load_workbook("Control Gastos Ingresos.xlsx")`) and writes the
record table into it, ignoring which source the session works on. -/
def exportSheet (templateRegistro : Sheet) (uploadedRegistro : Sheet)
    (source : FileSource) (registros : List Record) : Sheet :=
  writeTable templateRegistro registros

/-- The `Registro` sheet the session actually works on (src/app.py
lines 78-81, 98-102): the template's in `default` mode, the uploaded
workbook's after an upload. -/
def sessionRegistro (templateRegistro : Sheet) (uploadedRegistro : Sheet) :
    FileSource → Sheet
  | FileSource.default => templateRegistro
  | FileSource.uploaded => uploadedRegistro

/-- The exported file name (src/app.py lines 396-398):
`f"Control Gastos Ingresos {timestamp}.xlsx"` with the
`%Y%m%d%H%M%S`-formatted capture timestamp — always the bundled template's
base name. -/
def exportFileName (timestamp : String) : String :=
  "Control Gastos Ingresos " ++ timestamp ++ ".xlsx"

/-- Template `Registro` sheet for the C8 failing input. -/
def c8template : Sheet :=
  [[Cell.str ("plantilla")]]

/-- Uploaded `Registro` sheet for the C8 failing input: differs from the
bundled template. -/
def c8uploaded : Sheet :=
  [[Cell.str ("archivo del usuario")]]

/-- An original sheet for the C4 witness: twelve header rows. -/
def c4ws : Sheet :=
  List.replicate 12 ([] : Row)

/-- A record for the C4 witness. -/
def c4rec : Record :=
  { fecha := "05-02-2024", mes := "febrero", tipo := "Ingreso",
    concepto := "Salario", detalle := "n", valor := 9 }

/-- A record for the C9 witness. -/
def c9rec : Record :=
  { fecha := "05-02-2024", mes := "febrero", tipo := "Gasto",
    concepto := "Food", detalle := "x", valor := 4 }

/-- Text content of a cell as pandas hands it to a string column; an empty
cell contributes its `NaN` as the empty string in this model (no claim
depends on the distinction). -/
def cellText : Cell → String
  | Cell.str s => s
  | Cell.num n => toString n
  | Cell.empty => ""

/-- Numeric content of a cell; non-numeric cells are a precondition
violation of spec §4.4 and default to 0 in this model (no claim evaluates
them). -/
def cellNum : Cell → Int
  | Cell.num n => n
  | _ => 0

/-- The row selection of the parser for the `Todos` pseudo-month
(src/app.py lines 144-146): `df.iloc[11:, :].dropna(how='all')` — the
DataFrame rows from 0-based index 11 on, dropping rows that are entirely
empty across all columns. -/
def selectRowsTodos (df : Sheet) : Sheet :=
  (df.drop 11).filter (fun row => !(rowAllEmpty row))

/-- The row selection of the parser for a specific month (src/app.py
lines 141-143): `df[df.iloc[:, 1] == mes].dropna(how='all')` — the rows of
the whole DataFrame whose column 1 equals the month label, dropping rows
that are entirely empty. -/
def selectRowsMes (df : Sheet) (mes : String) : Sheet :=
  (df.filter (fun row => cellAt row 1 == Cell.str mes)).filter
    (fun row => !(rowAllEmpty row))

/-- One selected row converted to a record (src/app.py lines 148-151):
fields are read off positionally under the row-10 header
`Fecha, Mes, Ingreso / Gasto / Inversión, Concepto, Detalle, Valor`; the
`Fecha` cell is parsed with `pd.to_datetime(..., format='%d-%m-%Y')` and
re-emitted as `strftime('%d-%m-%Y')`; a `Fecha` cell that does not hold a
matching date string makes the conversion raise (spec §4.2
`DateFormatError`), modeled as `none`. -/
def recOfRow? (row : Row) : Option Record :=
  match cellAt row 0 with
  | Cell.str s =>
    match parseFecha? s with
    | some f =>
      some { fecha := formatFecha f, mes := cellText (cellAt row 1),
             tipo := cellText (cellAt row 2),
             concepto := cellText (cellAt row 3),
             detalle := cellText (cellAt row 4),
             valor := cellNum (cellAt row 5) }
    | none => none
  | _ => none

/-- The header assignment `registros.columns = df.iloc[10, :].dropna()`
(src/app.py line 148) succeeds exactly when DataFrame row 10 carries the
six column names; otherwise pandas raises (spec §7 `SheetShapeError`). -/
def headerOk (df : Sheet) : Bool :=
  ((getRowAt df 10).filter (fun c => !(c == Cell.empty))).length == 6

/-- The parser (src/app.py lines 138-151) over a DataFrame: select the data
rows for the chosen month (`none` stands for the `Todos` pseudo-month),
then normalize every selected row into a record; any failing date
conversion fails the whole parse. -/
def parseDF (df : Sheet) (mes? : Option String) : Option (List Record) :=
  if headerOk df then
    (match mes? with
     | none => selectRowsTodos df
     | some m => selectRowsMes df m).mapM recOfRow?
  else none

/-- A non-empty, date-valid data row at DataFrame index 11 for the C7
counterexample. -/
def c7row11 : Row :=
  [Cell.str ("05-01-2024"), Cell.str ("enero"), Cell.str ("Gasto"),
   Cell.str ("Food"), Cell.str (""), Cell.num 5]

/-- A data row at DataFrame index 12 for the C7 counterexample. -/
def c7row12 : Row :=
  [Cell.str ("06-01-2024"), Cell.str ("enero"), Cell.str ("Ingreso"),
   Cell.str ("Salario"), Cell.str (""), Cell.num 8]

/-- C7 counterexample DataFrame: rows 0-10 empty, a non-empty row at index
11 and another at index 12. -/
def c7df : Sheet :=
  List.replicate 11 ([] : Row) ++ [c7row11, c7row12]

/-- An original sheet for the C3 witness: eleven metadata rows and the
header row (sheet index 11, DataFrame row 10) with the six column names. -/
def c3orig : Sheet :=
  List.replicate 11 ([] : Row) ++
    [[Cell.str ("Fecha"), Cell.str ("Mes"),
      Cell.str ("Ingreso / Gasto / Inversión"), Cell.str ("Concepto"),
      Cell.str ("Detalle"), Cell.str ("Valor")]]

/-- A one-record table for the C3 witness. -/
def c3T : List Record :=
  [{ fecha := "01-03-2024", mes := "marzo", tipo := "Gasto",
     concepto := "Food", detalle := "lunch", valor := 15000 }]

theorem sumar_valor_eq_sum_ite (registros : List Record) (tipo : String) :
    sumar_valor registros tipo
      = (registros.map (fun r => if r.tipo = tipo then r.valor else 0)).sum := by
  induction registros with
  | nil => rfl
  | cons r rs ih =>
    simp only [sumar_valor, List.filter_cons] at ih ⊢
    by_cases h : r.tipo = tipo
    · simp [h, ih]
    · simp [h, ih]

/-- C1: for every record table, `totals` returns `ingresos` equal to the sum
of `valor` over records whose type is `"Ingreso"`, `gastos` the sum over
`"Gasto"`, `inversiones` the sum over `"Inversión"`, and
`balance = ingresos - gastos - inversiones`; on the empty table all four
results are zero. -/
theorem totals_spec (registros : List Record) :
    (totals registros).ingresos
        = (registros.map (fun r => if r.tipo = "Ingreso" then r.valor else 0)).sum
  ∧ (totals registros).gastos
        = (registros.map (fun r => if r.tipo = "Gasto" then r.valor else 0)).sum
  ∧ (totals registros).inversiones
        = (registros.map (fun r => if r.tipo = "Inversión" then r.valor else 0)).sum
  ∧ (totals registros).balance
        = (totals registros).ingresos - (totals registros).gastos
            - (totals registros).inversiones
  ∧ totals [] = ⟨0, 0, 0, 0⟩ := by
  refine ⟨?_, ?_, ?_, rfl, rfl⟩ <;>
    simpa [totals] using sumar_valor_eq_sum_ite registros _

/-- C2: for every table and candidate fields with a valid date, `addRecord`
constructs one record whose month label is the `meses` entry at position
`month - 1` derived from the date, appends it to the table (column order is
fixed by the `Record` structure, mirroring
`reindex(columns=registros.columns)`), and the resulting table has length
`len + 1`; concretely, adding
`{date: 01-03-2024, type: Gasto, concept: Food, detail: lunch, value: 15000}`
to the empty table under the scenario taxonomy yields one record with month
label `"marzo"`, and `totals` of that table is
`{ingresos: 0, gastos: 15000, inversiones: 0, balance: -15000}`. -/
theorem addRecord_spec (categories : Categorias) (registros : List Record)
    (fecha : Fecha) (tipo concepto detalle : String) (valor : Int)
    (conceptos : List String)
    (hm1 : 1 ≤ fecha.month) (hm2 : fecha.month ≤ 12)
    (htipo : tipo ∈ categories.tipos)
    (hcol : conceptsFor? categories tipo = some conceptos)
    (hconc : concepto ∈ conceptos)
    (hval : 0 ≤ valor) :
    (∃ mlabel, meses[fecha.month - 1]? = some mlabel ∧
      addRecord categories registros fecha tipo concepto detalle valor
        = Except.ok (registros ++
            [{ fecha := formatFecha fecha, mes := mlabel, tipo := tipo,
               concepto := concepto, detalle := detalle, valor := valor }]))
  ∧ (applyResult registros
        (addRecord categories registros fecha tipo concepto detalle valor)).length
      = registros.length + 1
  ∧ addRecord c2cats [] ⟨1, 3, 2024⟩ ("Gasto") ("Food") ("lunch") 15000
      = Except.ok [{ fecha := "01-03-2024", mes := "marzo", tipo := "Gasto",
                     concepto := "Food", detalle := "lunch", valor := 15000 }]
  ∧ totals [{ fecha := "01-03-2024", mes := "marzo", tipo := "Gasto",
              concepto := "Food", detalle := "lunch", valor := 15000 }]
      = ⟨0, 15000, 0, -15000⟩ := by
  have hm : fecha.month - 1 < meses.length := by
    simp only [meses, List.length]
    omega
  have hok : addRecord categories registros fecha tipo concepto detalle valor
      = Except.ok (registros ++
          [{ fecha := formatFecha fecha, mes := mesDe fecha, tipo := tipo,
             concepto := concepto, detalle := detalle, valor := valor }]) := by
    simp [addRecord, htipo, hcol, hconc]
    omega
  refine ⟨⟨meses[fecha.month - 1], ?_, ?_⟩, ?_, by rfl, by decide⟩
  · exact (List.getElem?_eq_getElem hm)
  · rw [hok]
    congr 2
    simp [mesDe, List.getD, List.getElem?_eq_getElem hm]
  · rw [hok]
    simp [applyResult]

/-- C2 witness: the general part of `addRecord_spec` applied at the concrete
spec scenario input. -/
theorem addRecord_spec_witness :
    (1 ≤ (3 : Nat) ∧ 0 ≤ (15000 : Int)) ∧
    ∃ mlabel, meses[(3 : Nat) - 1]? = some mlabel ∧
      addRecord c2cats [] ⟨1, 3, 2024⟩ ("Gasto") ("Food") ("lunch") 15000
        = Except.ok ([] ++
            [{ fecha := formatFecha ⟨1, 3, 2024⟩, mes := mlabel, tipo := "Gasto",
               concepto := "Food", detalle := "lunch", valor := 15000 }]) :=
  ⟨⟨by decide, by decide⟩,
    (addRecord_spec c2cats [] ⟨1, 3, 2024⟩ ("Gasto") ("Food") ("lunch") 15000
      (["Food", "Transport"]) (by decide) (by decide) (by decide) (by decide)
      (by decide) (by decide)).1⟩

/-- C5: with an in-range index, a known type, and a concept that is not
among the taxonomy's concepts for that type, both the modify flow and the
add flow are rejected with `InvalidConceptError`, and the session table is
unchanged. -/
theorem invalid_concept_rejected (categories : Categorias)
    (registros : List Record) (rowIndex : Int) (fecha : Fecha)
    (tipo c detalle : String) (valor : Int) (conceptos : List String)
    (hidx : 0 ≤ rowIndex) (hidx2 : rowIndex < (registros.length : Int))
    (htipo : tipo ∈ categories.tipos)
    (hcol : conceptsFor? categories tipo = some conceptos)
    (hc : c ∉ conceptos) :
    updateRecord categories registros rowIndex fecha tipo (some c) detalle valor
      = Except.error LedgerError.invalidConcept
  ∧ applyResult registros
      (updateRecord categories registros rowIndex fecha tipo (some c) detalle valor)
      = registros
  ∧ addRecord categories registros fecha tipo c detalle valor
      = Except.error LedgerError.invalidConcept
  ∧ applyResult registros (addRecord categories registros fecha tipo c detalle valor)
      = registros := by
  have hup : updateRecord categories registros rowIndex fecha tipo (some c) detalle
      valor = Except.error LedgerError.invalidConcept := by
    have hguard : 0 ≤ rowIndex ∧ rowIndex ≤ (registros.length : Int) - 1 := by
      omega
    simp [updateRecord, hguard, htipo, hcol, hc]
  have hadd : addRecord categories registros fecha tipo c detalle valor
      = Except.error LedgerError.invalidConcept := by
    simp [addRecord, htipo, hcol, hc]
  exact ⟨hup, by rw [hup]; rfl, hadd, by rw [hadd]; rfl⟩

/-- C5 witness: `invalid_concept_rejected` at a concrete table, taxonomy and
the bogus concept. -/
theorem invalid_concept_rejected_witness :
    ("Bogus" ∉ ["Food"]) ∧
    updateRecord c5cats [c6rec] 0 ⟨2, 1, 2024⟩ ("Gasto") (some ("Bogus")) ("d") 7
      = Except.error LedgerError.invalidConcept
  ∧ addRecord c5cats [c6rec] ⟨2, 1, 2024⟩ ("Gasto") ("Bogus") ("d") 7
      = Except.error LedgerError.invalidConcept :=
  have h := invalid_concept_rejected c5cats [c6rec] 0 ⟨2, 1, 2024⟩ ("Gasto")
    ("Bogus") ("d") 7 (["Food"]) (by decide) (by decide) (by decide) (by decide)
    (by decide)
  ⟨by decide, h.1, h.2.2.1⟩

/-- C6: for every integer index outside `[0, len)` both the delete flow and
the modify flow are rejected with `IndexOutOfRangeError` — in particular
deleting index 5 from a table of length 3 is — and for an in-range index the
delete flow removes exactly the record at that index, the remaining records
forming a dense 0-based sequence: the length drops by one, indices below the
removed one are unchanged and indices from it on shift down by one. -/
theorem delete_update_bounds (registros : List Record) (rowIndex : Int) :
    (¬ (0 ≤ rowIndex ∧ rowIndex < (registros.length : Int)) →
        deleteRecord registros rowIndex = Except.error LedgerError.indexOutOfRange
      ∧ (∀ categories fecha tipo concepto? detalle valor,
          updateRecord categories registros rowIndex fecha tipo concepto? detalle
            valor = Except.error LedgerError.indexOutOfRange))
  ∧ deleteRecord (List.replicate 3 c6rec) 5 = Except.error LedgerError.indexOutOfRange
  ∧ (0 ≤ rowIndex → rowIndex < (registros.length : Int) →
        deleteRecord registros rowIndex
          = Except.ok (registros.eraseIdx rowIndex.toNat)
      ∧ (registros.eraseIdx rowIndex.toNat).length = registros.length - 1
      ∧ (∀ j : Nat, j < rowIndex.toNat →
            (registros.eraseIdx rowIndex.toNat)[j]? = registros[j]?)
      ∧ (∀ j : Nat, rowIndex.toNat ≤ j →
            (registros.eraseIdx rowIndex.toNat)[j]? = registros[j + 1]?)) := by
  refine ⟨?_, by rfl, ?_⟩
  · intro hout
    have hguard : ¬ (0 ≤ rowIndex ∧ rowIndex ≤ (registros.length : Int) - 1) := by
      omega
    exact ⟨by simp [deleteRecord, hguard],
      fun categories fecha tipo concepto? detalle valor => by
        simp [updateRecord, hguard]⟩
  · intro h1 h2
    have hguard : 0 ≤ rowIndex ∧ rowIndex ≤ (registros.length : Int) - 1 := by
      omega
    have hlt : rowIndex.toNat < registros.length := by
      omega
    refine ⟨by simp [deleteRecord, hguard], ?_, ?_, ?_⟩
    · rw [List.length_eraseIdx_of_lt hlt]
    · intro j hj
      exact List.getElem?_eraseIdx_of_lt registros rowIndex.toNat j hj
    · intro j hj
      exact List.getElem?_eraseIdx_of_ge registros rowIndex.toNat j hj

/-- C6 witness: `delete_update_bounds` applied to a length-3 table at the
out-of-range index 5 and at the in-range index 1. -/
theorem delete_update_bounds_witness :
    deleteRecord (List.replicate 3 c6rec) 5 = Except.error LedgerError.indexOutOfRange
  ∧ deleteRecord (List.replicate 3 c6rec) 1
      = Except.ok ((List.replicate 3 c6rec).eraseIdx (Int.toNat 1))
  ∧ ((List.replicate 3 c6rec).eraseIdx (Int.toNat 1)).length = 2 :=
  have h5 := delete_update_bounds (List.replicate 3 c6rec) 5
  have h1 := (delete_update_bounds (List.replicate 3 c6rec) 1).2.2
    (by decide) (by decide)
  ⟨(h5.1 (by decide)).1, h1.1, h1.2.1⟩

/-- C10: in the modify flow, when no concept value is supplied (the concept
selectbox yields `None`), the updated record keeps the existing record's
concept — for an arbitrary (valid) new type, in particular one under which
the kept concept is not a valid concept. -/
theorem update_none_keeps_concepto (categories : Categorias)
    (registros : List Record) (rowIndex : Int) (fecha : Fecha)
    (tipo detalle : String) (valor : Int) (conceptos : List String) (r : Record)
    (hidx : 0 ≤ rowIndex) (hidx2 : rowIndex < (registros.length : Int))
    (htipo : tipo ∈ categories.tipos)
    (hcol : conceptsFor? categories tipo = some conceptos)
    (hval : 0 ≤ valor)
    (hr : registros[rowIndex.toNat]? = some r) :
    updateRecord categories registros rowIndex fecha tipo none detalle valor
      = Except.ok (registros.set rowIndex.toNat
          { fecha := formatFecha fecha, mes := mesDe fecha, tipo := tipo,
            concepto := r.concepto, detalle := detalle, valor := valor }) := by
  have hguard : 0 ≤ rowIndex ∧ rowIndex ≤ (registros.length : Int) - 1 := by
    omega
  have hv : ¬ (valor < 0) := by omega
  simp [updateRecord, hguard, htipo, hcol, hv, hr]

/-- C10 witness: `update_none_keeps_concepto` where the type changes from
`"Gasto"` to `"Ingreso"` while the kept concept `"Food"` is not a concept of
`"Ingreso"`. -/
theorem update_none_keeps_concepto_witness :
    conceptsFor? c10cats ("Ingreso") = some (["Salario"])
  ∧ updateRecord c10cats c10regs 0 ⟨2, 1, 2024⟩ ("Ingreso") none ("d") 5
      = Except.ok [{ fecha := "02-01-2024", mes := "enero", tipo := "Ingreso",
                     concepto := "Food", detalle := "d", valor := 5 }] := by
  have h := update_none_keeps_concepto c10cats c10regs 0 ⟨2, 1, 2024⟩
    ("Ingreso") ("d") 5 (["Salario"])
    ({ fecha := "01-01-2024", mes := "enero", tipo := "Gasto",
       concepto := "Food", detalle := "", valor := 10 })
    (by decide) (by decide) (by decide) (by decide) (by decide) (by decide)
  exact ⟨by decide, by rw [h]; rfl⟩

theorem getRowAt_setRowAt_self (ws : Sheet) (m : Nat) (row : Row) :
    getRowAt (setRowAt ws m row) m = row := by
  induction m generalizing ws with
  | zero => cases ws <;> rfl
  | succ n ih =>
    cases ws with
    | nil => exact ih []
    | cons w t => exact ih t

theorem getRowAt_setRowAt_ne (ws : Sheet) (m m' : Nat) (row : Row)
    (h : m' ≠ m) : getRowAt (setRowAt ws m row) m' = getRowAt ws m' := by
  induction m generalizing ws m' with
  | zero =>
    match ws, m', h with
    | [], 0, h => exact absurd rfl h
    | [], k + 1, _ => rfl
    | w :: t, 0, h => exact absurd rfl h
    | w :: t, k + 1, _ => rfl
  | succ n ih =>
    match ws, m', h with
    | [], 0, _ => rfl
    | [], k + 1, h =>
      have hk : k ≠ n := fun hh => h (by omega)
      exact ih [] k hk
    | w :: t, 0, _ => rfl
    | w :: t, k + 1, h =>
      have hk : k ≠ n := fun hh => h (by omega)
      exact ih t k hk

theorem setRowAt_setRowAt_self (ws : Sheet) (m : Nat) (r1 r2 : Row) :
    setRowAt (setRowAt ws m r1) m r2 = setRowAt ws m r2 := by
  induction m generalizing ws with
  | zero => cases ws <;> rfl
  | succ n ih =>
    cases ws with
    | nil => exact congrArg (List.cons []) (ih [])
    | cons w t => exact congrArg (List.cons w) (ih t)

theorem cellAt_setCellRow_self (row : Row) (c : Nat) (v : Cell) :
    cellAt (setCellRow row c v) c = v := by
  induction c generalizing row with
  | zero => cases row <;> rfl
  | succ n ih =>
    cases row with
    | nil => exact ih []
    | cons x t => exact ih t

theorem cellAt_setCellRow_ne (row : Row) (c c' : Nat) (v : Cell)
    (h : c' ≠ c) : cellAt (setCellRow row c v) c' = cellAt row c' := by
  induction c generalizing row c' with
  | zero =>
    match row, c', h with
    | [], 0, h => exact absurd rfl h
    | [], k + 1, _ => rfl
    | x :: t, 0, h => exact absurd rfl h
    | x :: t, k + 1, _ => rfl
  | succ n ih =>
    match row, c', h with
    | [], 0, _ => rfl
    | [], k + 1, h =>
      have hk : k ≠ n := fun hh => h (by omega)
      exact ih [] k hk
    | x :: t, 0, _ => rfl
    | x :: t, k + 1, h =>
      have hk : k ≠ n := fun hh => h (by omega)
      exact ih t k hk

theorem getRowAt_eq_nil (ws : Sheet) (m : Nat) (h : ws.length ≤ m) :
    getRowAt ws m = [] := by
  induction ws generalizing m with
  | nil => rfl
  | cons w t ih =>
    cases m with
    | zero => simp at h
    | succ k =>
      exact ih k (by simpa [Nat.succ_le_succ_iff] using h)

theorem getRowAt_eq_getElem (ws : Sheet) (m : Nat) (h : m < ws.length) :
    getRowAt ws m = ws[m] := by
  induction ws generalizing m with
  | nil => simp at h
  | cons w t ih =>
    cases m with
    | zero => rfl
    | succ k => simpa using ih k (by simpa [Nat.succ_lt_succ_iff] using h)

theorem setRowAt_eq_append (ws : Sheet) (m : Nat) (row : Row)
    (h : m ≤ ws.length) :
    setRowAt ws m row = ws.take m ++ row :: ws.drop (m + 1) := by
  induction m generalizing ws with
  | zero => cases ws <;> rfl
  | succ n ih =>
    cases ws with
    | nil => simp at h
    | cons w t =>
      have := ih t (by simpa [Nat.succ_le_succ_iff] using h)
      simp [setRowAt, this]

theorem length_setRowAt (ws : Sheet) (m : Nat) (row : Row)
    (h : m ≤ ws.length) :
    (setRowAt ws m row).length = max ws.length (m + 1) := by
  rw [setRowAt_eq_append ws m row h]
  simp [List.length_append]
  omega

theorem setRowAt_drop_succ (ws : Sheet) (m : Nat) (row : Row)
    (h : m ≤ ws.length) :
    (setRowAt ws m row).drop (m + 1) = ws.drop (m + 1) := by
  rw [setRowAt_eq_append ws m row h, List.append_cons]
  refine List.drop_left' ?_
  simp [List.length_take_of_le h]

theorem setRowAt_take (ws : Sheet) (m : Nat) (row : Row)
    (h : m ≤ ws.length) : (setRowAt ws m row).take m = ws.take m := by
  rw [setRowAt_eq_append ws m row h]
  exact List.take_left' (List.length_take_of_le h)

theorem getRowAt_drop (l : Sheet) (k m : Nat) :
    getRowAt (l.drop k) m = getRowAt l (k + m) := by
  induction k generalizing l with
  | zero => simp [List.drop]
  | succ n ih =>
    cases l with
    | nil => rfl
    | cons w t =>
      have := ih t
      simpa [List.drop_succ_cons, Nat.succ_add] using this

theorem writeRowLoop_itertuple (ws : Sheet) (i : Nat) (r : Record) :
    writeRowLoop ws i (itertuple r) 0 1
      = setRowAt ws (i - 1) (overwriteRow (getRowAt ws (i - 1)) r) := by
  simp only [itertuple, writeRowLoop]
  norm_num
  simp only [wsCell, getRowAt_setRowAt_self, setRowAt_setRowAt_self,
    overwriteRow]

theorem cellAt_overwriteRow (row : Row) (r : Record) :
    cellAt (overwriteRow row r) 0 = Cell.str r.fecha
  ∧ cellAt (overwriteRow row r) 1 = cellAt row 1
  ∧ cellAt (overwriteRow row r) 2 = Cell.str r.tipo
  ∧ cellAt (overwriteRow row r) 3 = Cell.str r.concepto
  ∧ cellAt (overwriteRow row r) 4 = Cell.str r.detalle
  ∧ cellAt (overwriteRow row r) 5 = Cell.num r.valor := by
  unfold overwriteRow
  refine ⟨?_, ?_, ?_, ?_, ?_, ?_⟩ <;>
    simp [cellAt_setCellRow_self, cellAt_setCellRow_ne]

theorem writeRegistros_nil (ws : Sheet) (i : Nat) :
    writeRegistros ws i [] = ws := rfl

theorem zipWrite_nil (rows : List Row) : zipWrite rows [] = rows := by
  cases rows <;> rfl

theorem zipWrite_drop_length (rows : List Row) (T : List Record) :
    (zipWrite rows T).drop T.length = rows.drop T.length := by
  induction T generalizing rows with
  | nil => rw [zipWrite_nil]
  | cons r rs ih =>
    cases rows with
    | nil => simp [zipWrite, ih]
    | cons row rest => simp [zipWrite, ih]

theorem zipWrite_getRowAt (rows : List Row) (T : List Record) (i : Nat)
    (r : Record) (h : T[i]? = some r) :
    getRowAt (zipWrite rows T) i = overwriteRow (getRowAt rows i) r := by
  induction T generalizing rows i with
  | nil => simp at h
  | cons t ts ih =>
    cases i with
    | zero =>
      simp at h
      subst h
      cases rows <;> rfl
    | succ k =>
      have h' : ts[k]? = some r := by simpa using h
      cases rows with
      | nil => simpa [zipWrite, getRowAt] using ih [] k h'
      | cons row rest => simpa [zipWrite, getRowAt] using ih rest k h'

theorem writeRegistros_drop_take (T : List Record) :
    ∀ (ws : Sheet) (k : Nat), k ≤ ws.length →
      (writeRegistros ws (k + 1) T).drop k = zipWrite (ws.drop k) T
    ∧ (writeRegistros ws (k + 1) T).take k = ws.take k := by
  induction T with
  | nil => exact fun ws k h => ⟨by rw [zipWrite_nil, writeRegistros_nil], rfl⟩
  | cons r rs ih =>
    intro ws k h
    have heq : writeRegistros ws (k + 1) (r :: rs)
        = writeRegistros (setRowAt ws k (overwriteRow (getRowAt ws k) r))
            (k + 1 + 1) rs := by
      show writeRegistros (writeRowLoop ws (k + 1) (itertuple r) 0 1)
          (k + 1 + 1) rs = _
      rw [writeRowLoop_itertuple]
      norm_num
    have hwsl : k + 1
        ≤ (setRowAt ws k (overwriteRow (getRowAt ws k) r)).length := by
      rw [length_setRowAt ws k _ h]
      omega
    obtain ⟨ihd, iht⟩ :=
      ih (setRowAt ws k (overwriteRow (getRowAt ws k) r)) (k + 1) hwsl
    have hlenfinal : k
        < (writeRegistros (setRowAt ws k (overwriteRow (getRowAt ws k) r))
            (k + 1 + 1) rs).length := by
      have h2 := congrArg List.length iht
      rw [List.length_take, List.length_take] at h2
      have h3 := Nat.min_le_left (k + 1)
        (setRowAt ws k (overwriteRow (getRowAt ws k) r)).length
      omega
    constructor
    · rw [heq, List.drop_eq_getElem_cons hlenfinal]
      have hfk : (writeRegistros (setRowAt ws k (overwriteRow (getRowAt ws k) r))
            (k + 1 + 1) rs)[k]?
          = some (overwriteRow (getRowAt ws k) r) := by
        rw [← List.getElem?_take_of_lt (Nat.lt_succ_self k), iht,
          List.getElem?_take_of_lt (Nat.lt_succ_self k),
          List.getElem?_eq_getElem (by omega :
            k < (setRowAt ws k (overwriteRow (getRowAt ws k) r)).length)]
        rw [← getRowAt_eq_getElem _ _ (by omega), getRowAt_setRowAt_self]
      have hfk2 : (writeRegistros (setRowAt ws k (overwriteRow (getRowAt ws k) r))
            (k + 1 + 1) rs)[k] = overwriteRow (getRowAt ws k) r := by
        have := List.getElem?_eq_getElem hlenfinal
        rw [this] at hfk
        exact Option.some.inj hfk
      rw [hfk2, ihd, setRowAt_drop_succ ws k _ h]
      by_cases hk : k < ws.length
      · rw [List.drop_eq_getElem_cons hk, ← getRowAt_eq_getElem ws k hk]
        rfl
      · have hke : ws.length ≤ k := by omega
        rw [List.drop_eq_nil_of_le hke, List.drop_eq_nil_of_le (by omega),
          getRowAt_eq_nil ws k hke]
        rfl
    · rw [heq]
      have hstep : (writeRegistros (setRowAt ws k (overwriteRow (getRowAt ws k) r))
            (k + 1 + 1) rs).take k
          = ((writeRegistros (setRowAt ws k (overwriteRow (getRowAt ws k) r))
              (k + 1 + 1) rs).take (k + 1)).take k := by
        rw [List.take_take, Nat.min_eq_left (by omega)]
      rw [hstep, iht, List.take_take, Nat.min_eq_left (by omega),
        setRowAt_take ws k _ h]

theorem writeTable_drop12 (ws : Sheet) (T : List Record)
    (h : 12 ≤ ws.length) :
    (writeTable ws T).drop 12 = zipWrite (ws.drop 12) T :=
  (writeRegistros_drop_take T ws 12 h).1

/-- C4: for every original sheet with the twelve-row header block and every
record table, the serializer writes record `i` (0-based) into sheet row
`12 + i` (1-indexed Excel row `13 + i`): 0-indexed columns 0, 2, 3, 4, 5
receive the record's date, type, concept, detail and value (the reserved
second column, 0-indexed 1, is skipped, so the fields after it sit one
column to the right of the position they would occupy if written
consecutively), and every row of the original from index `12 + len` on is
left unchanged — stale rows are not truncated. -/
theorem write_layout (ws : Sheet) (T : List Record) (h12 : 12 ≤ ws.length) :
    (∀ i r, T[i]? = some r →
        cellAt (getRowAt (writeTable ws T) (12 + i)) 0 = Cell.str r.fecha
      ∧ cellAt (getRowAt (writeTable ws T) (12 + i)) 2 = Cell.str r.tipo
      ∧ cellAt (getRowAt (writeTable ws T) (12 + i)) 3 = Cell.str r.concepto
      ∧ cellAt (getRowAt (writeTable ws T) (12 + i)) 4 = Cell.str r.detalle
      ∧ cellAt (getRowAt (writeTable ws T) (12 + i)) 5 = Cell.num r.valor)
  ∧ (writeTable ws T).drop (12 + T.length) = ws.drop (12 + T.length) := by
  constructor
  · intro i r hr
    have hrow : getRowAt (writeTable ws T) (12 + i)
        = overwriteRow (getRowAt ws (12 + i)) r := by
      rw [← getRowAt_drop (writeTable ws T) 12 i, writeTable_drop12 ws T h12,
        zipWrite_getRowAt _ _ _ _ hr, getRowAt_drop]
    rw [hrow]
    have h6 := cellAt_overwriteRow (getRowAt ws (12 + i)) r
    exact ⟨h6.1, h6.2.2.1, h6.2.2.2.1, h6.2.2.2.2.1, h6.2.2.2.2.2⟩
  · calc (writeTable ws T).drop (12 + T.length)
        = ((writeTable ws T).drop 12).drop T.length := by
          rw [List.drop_drop]
      _ = (zipWrite (ws.drop 12) T).drop T.length := by
          rw [writeTable_drop12 ws T h12]
      _ = (ws.drop 12).drop T.length := zipWrite_drop_length _ _
      _ = ws.drop (12 + T.length) := by rw [List.drop_drop]

/-- C4 witness: `write_layout` on a 12-row original and a one-record
table. -/
theorem write_layout_witness :
    (12 ≤ c4ws.length ∧ [c4rec][0]? = some c4rec)
  ∧ cellAt (getRowAt (writeTable c4ws [c4rec]) (12 + 0)) 0 = Cell.str c4rec.fecha
  ∧ cellAt (getRowAt (writeTable c4ws [c4rec]) (12 + 0)) 5 = Cell.num c4rec.valor
  ∧ (writeTable c4ws [c4rec]).drop (12 + List.length [c4rec])
      = c4ws.drop (12 + List.length [c4rec]) :=
  have h := write_layout c4ws [c4rec] (by decide)
  have h0 := h.1 0 c4rec rfl
  ⟨⟨by decide, rfl⟩, h0.1, h0.2.2.2.2, h.2⟩

theorem writeRegistros_core_eq (T T' : List Record)
    (h : T.map core = T'.map core) :
    ∀ (ws : Sheet) (i : Nat), writeRegistros ws i T = writeRegistros ws i T' := by
  induction T generalizing T' with
  | nil =>
    cases T' with
    | nil => exact fun ws i => rfl
    | cons r' rs' => simp at h
  | cons r rs ih =>
    cases T' with
    | nil => simp at h
    | cons r' rs' =>
      simp only [List.map_cons, List.cons.injEq] at h
      obtain ⟨hc, hcs⟩ := h
      simp only [core, Prod.mk.injEq] at hc
      intro ws i
      have hrow : writeRowLoop ws i (itertuple r) 0 1
          = writeRowLoop ws i (itertuple r') 0 1 := by
        rw [writeRowLoop_itertuple, writeRowLoop_itertuple]
        unfold overwriteRow
        rw [hc.1, hc.2.1, hc.2.2.1, hc.2.2.2.1, hc.2.2.2.2]
      show writeRegistros (writeRowLoop ws i (itertuple r) 0 1) (i + 1) rs = _
      rw [hrow]
      exact ih rs' hcs _ _

theorem writeRegistros_col1 (T : List Record) :
    ∀ (ws : Sheet) (i m : Nat),
      cellAt (getRowAt (writeRegistros ws i T) m) 1
        = cellAt (getRowAt ws m) 1 := by
  induction T with
  | nil => exact fun ws i m => rfl
  | cons r rs ih =>
    intro ws i m
    show cellAt (getRowAt
      (writeRegistros (writeRowLoop ws i (itertuple r) 0 1) (i + 1) rs) m) 1 = _
    rw [ih, writeRowLoop_itertuple]
    by_cases hm : m = i - 1
    · subst hm
      rw [getRowAt_setRowAt_self]
      exact (cellAt_overwriteRow _ r).2.1
    · rw [getRowAt_setRowAt_ne _ _ _ _ hm]

/-- C9: the serializer never emits the `mes` month-label field: the output
sheet is the same for any two tables that agree on all fields except the
month label, and 0-indexed column 1 (Excel column B) of every output row
keeps the original sheet's content. -/
theorem write_never_emits_mes (ws : Sheet) (T T' : List Record)
    (h : T.map core = T'.map core) :
    writeTable ws T = writeTable ws T'
  ∧ ∀ m, cellAt (getRowAt (writeTable ws T) m) 1 = cellAt (getRowAt ws m) 1 :=
  ⟨writeRegistros_core_eq T T' h ws 13, fun m => writeRegistros_col1 T ws 13 m⟩

/-- C9 witness: `write_never_emits_mes` on two one-record tables that
differ exactly in the month label. -/
theorem write_never_emits_mes_witness :
    ([c9rec].map core = [{ c9rec with mes := "otro" }].map core)
  ∧ writeTable c4ws [c9rec] = writeTable c4ws [{ c9rec with mes := "otro" }]
  ∧ cellAt (getRowAt (writeTable c4ws [c9rec]) 12) 1
      = cellAt (getRowAt c4ws 12) 1 :=
  have h := write_never_emits_mes c4ws [c9rec]
    [{ c9rec with mes := "otro" }] rfl
  ⟨rfl, h.1, h.2 12⟩

/-- C8 (refuting evaluation): the export flow in a session whose source is
an uploaded workbook different from the bundled template.  The produced
sheet is the bundled template's `Registro` sheet — not a copy of the
session's input workbook, which the claim requires — and the output name is
always the template's base name followed by the capture timestamp and
`.xlsx`. -/
theorem export_always_uses_template :
    exportSheet c8template c8uploaded FileSource.uploaded [] = c8template
  ∧ sessionRegistro c8template c8uploaded FileSource.uploaded = c8uploaded
  ∧ c8template ≠ c8uploaded
  ∧ exportFileName ("20240301120000")
      = "Control Gastos Ingresos 20240301120000.xlsx" :=
  ⟨rfl, rfl, by decide, rfl⟩

/-- C7 (amended): the parser's data-row selection, characterized against
the DataFrame the code indexes (`df.iloc`).  For the `Todos` pseudo-month a
row is selected iff it is not entirely empty and sits at index 11 or beyond
(1-indexed output row 13 and beyond) — there is no separately skipped
sentinel row.  For a specific month a row is selected iff it is not
entirely empty and its column 1 equals the month, taken from the whole
DataFrame, not only from the data region. -/
theorem parser_row_selection (df : Sheet) (row : Row) (mes : String) :
    (row ∈ selectRowsTodos df ↔
      (rowAllEmpty row = false ∧ ∃ i, 11 ≤ i ∧ df[i]? = some row))
  ∧ (row ∈ selectRowsMes df mes ↔
      (rowAllEmpty row = false ∧ cellAt row 1 = Cell.str mes ∧ row ∈ df)) := by
  constructor
  · unfold selectRowsTodos
    rw [List.mem_filter]
    constructor
    · rintro ⟨hmem, hne⟩
      rw [List.mem_iff_getElem?] at hmem
      obtain ⟨j, hj⟩ := hmem
      rw [List.getElem?_drop] at hj
      exact ⟨by simpa using hne, 11 + j, by omega, hj⟩
    · rintro ⟨hne, i, hi, hrow⟩
      refine ⟨?_, by simpa using hne⟩
      rw [List.mem_iff_getElem?]
      refine ⟨i - 11, ?_⟩
      rw [List.getElem?_drop]
      have : 11 + (i - 11) = i := by omega
      rw [this]
      exact hrow
  · unfold selectRowsMes
    rw [List.mem_filter, List.mem_filter]
    constructor
    · rintro ⟨⟨hmem, hcol⟩, hne⟩
      exact ⟨by simpa using hne, by simpa using hcol, hmem⟩
    · rintro ⟨hne, hcol, hmem⟩
      exact ⟨⟨hmem, by simpa using hcol⟩, by simpa using hne⟩

/-- C7 counterexample: on `c7df` the `Todos` selection of the parser keeps
the non-empty row at DataFrame index 11, so it differs from the selection
of only the rows from index 12 on (two rows versus one): the claim's
"exactly the rows at index 12 and beyond, skipping the row-11 sentinel" is
false of the code. -/
theorem parser_row_selection_cex :
    selectRowsTodos c7df
      ≠ ((c7df.drop 12).filter (fun row => !(rowAllEmpty row)))
  ∧ (selectRowsTodos c7df).length = 2
  ∧ ((c7df.drop 12).filter (fun row => !(rowAllEmpty row))).length = 1
  ∧ rowAllEmpty c7row11 = false :=
  ⟨fun hcontra => absurd (congrArg List.length hcontra) (by decide),
   rfl, rfl, rfl⟩

theorem getRowAt_eq_getD (ws : Sheet) (m : Nat) :
    getRowAt ws m = (ws[m]?).getD [] := by
  induction ws generalizing m with
  | nil => simp [getRowAt]
  | cons w t ih =>
    cases m with
    | zero => simp [getRowAt]
    | succ k => simpa [getRowAt] using ih k

theorem getRowAt_eq_of_take_eq (l l' : Sheet) (k m : Nat)
    (h : l.take k = l'.take k) (hm : m < k) :
    getRowAt l m = getRowAt l' m := by
  rw [getRowAt_eq_getD, getRowAt_eq_getD,
    ← List.getElem?_take_of_lt (l := l) hm, h,
    List.getElem?_take_of_lt hm]

theorem cellAt_empty_of_rowAllEmpty (row : Row)
    (h : rowAllEmpty row = true) (c : Nat) : cellAt row c = Cell.empty := by
  induction row generalizing c with
  | nil => cases c <;> rfl
  | cons x t ih =>
    simp only [rowAllEmpty, List.all_cons, Bool.and_eq_true, beq_iff_eq] at h
    cases c with
    | zero => exact h.1
    | succ k => exact ih (by simpa [rowAllEmpty] using h.2) k

theorem rowAllEmpty_eq_false_of_cellAt (row : Row) (c : Nat)
    (h : cellAt row c ≠ Cell.empty) : rowAllEmpty row = false := by
  cases hb : rowAllEmpty row
  · rfl
  · exact absurd (cellAt_empty_of_rowAllEmpty row hb c) h

theorem recOfRow?_overwriteRow (row0 : Row) (r : Record) (f : Fecha)
    (hf : parseFecha? r.fecha = some f) (hff : formatFecha f = r.fecha) :
    recOfRow? (overwriteRow row0 r)
      = some { fecha := r.fecha, mes := cellText (cellAt row0 1),
               tipo := r.tipo, concepto := r.concepto,
               detalle := r.detalle, valor := r.valor } := by
  have h6 := cellAt_overwriteRow row0 r
  simp [recOfRow?, h6.1, h6.2.1, h6.2.2.1, h6.2.2.2.1, h6.2.2.2.2.1,
    h6.2.2.2.2.2, hf, hff, cellText, cellNum]

theorem zipWrite_parse (T : List Record) :
    ∀ rows : List Row, (∀ row ∈ rows, rowAllEmpty row = true) →
      (∀ r ∈ T, isCanonicalFecha r.fecha = true) →
      (((zipWrite rows T).filter (fun row => !(rowAllEmpty row))).mapM
          recOfRow?).map (List.map core)
        = some (T.map core) := by
  induction T with
  | nil =>
    intro rows hrows _
    rw [zipWrite_nil]
    have hnil : rows.filter (fun row => !(rowAllEmpty row)) = [] := by
      rw [List.filter_eq_nil_iff]
      intro row hrow
      simp [hrows row hrow]
    rw [hnil]
    rfl
  | cons r rs ih =>
    intro rows hrows hdates
    have hr : isCanonicalFecha r.fecha = true := hdates r (by simp)
    have hrs : ∀ x ∈ rs, isCanonicalFecha x.fecha = true :=
      fun x hx => hdates x (by simp [hx])
    obtain ⟨f, hf, hff⟩ : ∃ f, parseFecha? r.fecha = some f
        ∧ formatFecha f = r.fecha := by
      unfold isCanonicalFecha at hr
      cases hp : parseFecha? r.fecha with
      | none => rw [hp] at hr; simp at hr
      | some f =>
        rw [hp] at hr
        exact ⟨f, rfl, by simpa using hr⟩
    have hstep : ∀ (row0 : Row) (rest : List Row),
        rowAllEmpty row0 = true → (∀ row ∈ rest, rowAllEmpty row = true) →
        (((overwriteRow row0 r :: zipWrite rest rs).filter
            (fun row => !(rowAllEmpty row))).mapM recOfRow?).map (List.map core)
          = some ((r :: rs).map core) := by
      intro row0 rest _ hrest
      have hne : rowAllEmpty (overwriteRow row0 r) = false := by
        refine rowAllEmpty_eq_false_of_cellAt _ 0 ?_
        rw [(cellAt_overwriteRow row0 r).1]
        simp
      rw [List.filter_cons_of_pos (by simp [hne]), List.mapM_cons,
        recOfRow?_overwriteRow row0 r f hf hff]
      have ihx := ih rest hrest hrs
      cases hmm : ((zipWrite rest rs).filter
          (fun row => !(rowAllEmpty row))).mapM recOfRow? with
      | none => rw [hmm] at ihx; simp at ihx
      | some L =>
        rw [hmm] at ihx
        have hL : L.map core = rs.map core := by simpa using ihx
        simp [core, hL]
    cases rows with
    | nil =>
      exact hstep [] [] rfl (fun x hx => absurd hx (by simp))
    | cons row0 rest =>
      exact hstep row0 rest (hrows row0 (by simp))
        (fun x hx => hrows x (by simp [hx]))

/-- C3: for every original sheet with the twelve-row header block, a
well-formed header row, and an empty data region, and every record table
whose dates are canonical `DD-MM-YYYY` strings, parsing the DataFrame of
the serialized sheet recovers a table equal to the original one in the
fields date, type, concept, detail and value (the month label is the one
field the serializer does not write, cf. C9). -/
theorem parse_write_roundtrip (orig : Sheet) (T : List Record)
    (hlen : 12 ≤ orig.length)
    (hheader : headerOk (orig.drop 1) = true)
    (hdates : ∀ r ∈ T, isCanonicalFecha r.fecha = true)
    (hempty : ∀ row ∈ orig.drop 12, rowAllEmpty row = true) :
    (parseDF ((writeTable orig T).drop 1) none).map (List.map core)
      = some (T.map core) := by
  have htake : (writeTable orig T).take 12 = orig.take 12 :=
    (writeRegistros_drop_take T orig 12 hlen).2
  have h11 : getRowAt (writeTable orig T) 11 = getRowAt orig 11 :=
    getRowAt_eq_of_take_eq _ _ 12 11 htake (by omega)
  have hh2 : headerOk ((writeTable orig T).drop 1) = true := by
    unfold headerOk at hheader ⊢
    rw [getRowAt_drop] at hheader ⊢
    norm_num at hheader ⊢
    rw [h11]
    exact hheader
  have hsel : selectRowsTodos ((writeTable orig T).drop 1)
      = (zipWrite (orig.drop 12) T).filter (fun row => !(rowAllEmpty row)) := by
    unfold selectRowsTodos
    rw [List.drop_drop]
    norm_num
    rw [writeTable_drop12 orig T hlen]
  unfold parseDF
  rw [if_pos hh2]
  rw [show (match (none : Option String) with
      | none => selectRowsTodos ((writeTable orig T).drop 1)
      | some m => selectRowsMes ((writeTable orig T).drop 1) m)
    = selectRowsTodos ((writeTable orig T).drop 1) from rfl]
  rw [hsel]
  exact zipWrite_parse T (orig.drop 12) hempty hdates

/-- C3 witness: `parse_write_roundtrip` on a 12-row original sheet and the
one-record table of the spec scenario. -/
theorem parse_write_roundtrip_witness :
    (12 ≤ c3orig.length
      ∧ headerOk (c3orig.drop 1) = true
      ∧ (∀ r ∈ c3T, isCanonicalFecha r.fecha = true)
      ∧ (∀ row ∈ c3orig.drop 12, rowAllEmpty row = true))
  ∧ (parseDF ((writeTable c3orig c3T).drop 1) none).map (List.map core)
      = some (c3T.map core) :=
  ⟨⟨by decide, by decide, by decide, by decide⟩,
   parse_write_roundtrip c3orig c3T (by decide) (by decide) (by decide)
     (by decide)⟩

end ControlGastos
